import Mathlib

/-!
Shallow embedding of the orbit-it release pipeline
(packages/core/src/lib/services/release-service.ts, lib/git-client.ts and
the utilities they use), together with theorems settling the spec claims.

JS conventions used throughout the embedding:
  - a JS value that can be `null`/`undefined` is an `Option`;
  - a thrown JS value is a `Thrown` (an `OrbitItError`, some other `Error`,
    or a non-`Error` value);
  - external collaborators (simple-git, octokit, fast-glob, the filesystem)
    are modelled by a `World` record of outcomes; the embedded code consumes
    those outcomes exactly as the source consumes the awaited results;
  - every mutating collaborator call is recorded in a `Mutation` trace.
-/

/-- Error content line of an OrbitItError (utils/errors.ts). -/
structure ErrLine where
  message : String
deriving DecidableEq, Repr

/-- OrbitItError from utils/errors.ts: a message plus remediation content. -/
structure OrbitItError where
  message : String
  content : List ErrLine
deriving DecidableEq, Repr

/-- A thrown JS value: an OrbitItError, some other Error (carrying its
message), or a value that is not an `instanceof Error` at all. -/
inductive Thrown where
  | orbit (e : OrbitItError)
  | err (message : String)
  | nonError
deriving DecidableEq, Repr

/-- The `catch (foundError)` pattern repeated through the source: an
OrbitItError is kept, another Error is wrapped with a fallback content line,
and anything else falls through both `instanceof` checks leaving the local
`error` variable undefined. -/
def wrapCatch (fallback : String) : Thrown → Option OrbitItError
  | .orbit e => some e
  | .err m => some ⟨m, [⟨fallback⟩]⟩
  | .nonError => none

/-- FunctionResult from types/functions.ts: `{ error?, data? }`. -/
structure FunctionResult (α : Type) where
  error : Option OrbitItError
  data : Option α
deriving DecidableEq, Repr

/-- Commit (DefaultLogFields of simple-git), restricted to the fields the
release service reads. An absent author name is the empty string (falsy). -/
structure Commit where
  hash : String
  message : String
  author_name : String
  author_email : String
deriving DecidableEq, Repr

/-- CommitType from types/git-client.ts: the closed ten-value enumeration. -/
inductive CommitType where
  | feat | fix | docs | style | refactor | perf | tst | chore | revert | other
deriving DecidableEq, Repr

/-- JS `x || d` for a string-or-null/undefined x: the default is used when x
is absent or the empty string (both falsy). -/
def jsOrStr (x : Option String) (d : String) : String :=
  match x with
  | some s => if s = "" then d else s
  | none => d

/-- JS template interpolation of a string-or-null value: null prints "null". -/
def jsTemplate (x : Option String) : String :=
  match x with
  | some s => s
  | none => "null"

/-- JS `b` default for an optional boolean destructured with `= false`. -/
def jsBoolOpt (x : Option Bool) : Bool := x.getD false

/-- JS String.prototype.startsWith. -/
def jsStartsWith (s pre : String) : Bool := pre.toList.isPrefixOf s.toList

/-- JS String.prototype.endsWith. -/
def jsEndsWith (s suf : String) : Bool := suf.toList.isSuffixOf s.toList

/- ### Commit classifier
Model of `commitMessageRegex = /^(feat|fix|docs|style|refactor|perf|test|chore)(\([^)]*\))?:/`
applied with `String.prototype.match`. The pattern is anchored at the start;
the first capture is the alternative that matched. No alternative is a
prefix of another, so the first (and only) alternative whose literal is a
prefix of the message and whose remainder satisfies the optional-scope-plus-
colon tail is the capture. `[^)]*` is forced to stop at the first `)`. -/

/-- Scope tail of the regex: after `(` consume non-`)` characters up to the
first `)`, which must be followed by `:`. -/
def scopeThenColon : List Char → Bool
  | [] => false
  | ')' :: rest =>
    match rest with
    | ':' :: _ => true
    | _ => false
  | _ :: rest => scopeThenColon rest

/-- Tail of the regex after the type literal: `(\([^)]*\))?:`. -/
def typeTailMatches : List Char → Bool
  | ':' :: _ => true
  | '(' :: rest => scopeThenColon rest
  | _ => false

/-- Literal prefix test on character lists. -/
def litPrefix : List Char → List Char → Option (List Char)
  | [], cs => some cs
  | _, [] => none
  | l :: ls, c :: cs => if c = l then litPrefix ls cs else none

/-- The eight alternatives of commitMessageRegex, in source order. -/
def commitTypeAlternatives : List (CommitType × List Char) :=
  [ (CommitType.feat, ['f','e','a','t'])
  , (CommitType.fix, ['f','i','x'])
  , (CommitType.docs, ['d','o','c','s'])
  , (CommitType.style, ['s','t','y','l','e'])
  , (CommitType.refactor, ['r','e','f','a','c','t','o','r'])
  , (CommitType.perf, ['p','e','r','f'])
  , (CommitType.tst, ['t','e','s','t'])
  , (CommitType.chore, ['c','h','o','r','e']) ]

/-- First capture of `message.match(commitMessageRegex)`, or none when the
regex does not match. -/
def commitMessageRegexCapture (cs : List Char) : Option CommitType :=
  commitTypeAlternatives.findSome? fun p =>
    match litPrefix p.2 cs with
    | some rest => if typeTailMatches rest then some p.1 else none
    | none => none

/-- Classification step of groupCommitsByType: the first regex capture, or
`other` when the message does not match. -/
def classifyCommit (c : Commit) : CommitType :=
  (commitMessageRegexCapture c.message.toList).getD CommitType.other

/-- Grouped commits are a JS object: an association list whose key order is
the insertion order of the ten initialised categories. -/
abbrev Grouped := List (CommitType × List Commit)

/-- The ten categories in the initialisation order of groupCommitsByType
(also the Object.entries iteration order, since every key is initialised up
front and never deleted). -/
def commitTypeOrder : List CommitType :=
  [ CommitType.feat, CommitType.fix, CommitType.docs, CommitType.style
  , CommitType.refactor, CommitType.perf, CommitType.tst, CommitType.chore
  , CommitType.revert, CommitType.other ]

/-- The initial grouped object of groupCommitsByType: all ten categories
mapped to empty arrays. -/
def initGrouped : Grouped := commitTypeOrder.map fun t => (t, [])

/-- `grouped[type].push(commit)` on the grouped object. (The preceding
`if (!grouped[type])` re-initialisation in the source is dead: every
possible type is present from initialisation.) -/
def pushGrouped (g : Grouped) (t : CommitType) (c : Commit) : Grouped :=
  g.map fun p => if p.1 = t then (p.1, p.2 ++ [c]) else p

/-- groupCommitsByType from release-service.ts. -/
def groupCommitsByType (commits : List Commit) : Grouped :=
  commits.foldl (fun g c => pushGrouped g (classifyCommit c) c) initGrouped

/-- getCommitTypeLabel from release-service.ts: the labels record, with the
`labels[type] || fallback` lookup (revert has no entry, so it falls back). -/
def getCommitTypeLabel (t : CommitType) : String :=
  match t with
  | .feat => "üöÄ Features"
  | .fix => "üêõ Bug Fixes"
  | .perf => "‚ö° Performance Improvements"
  | .refactor => "‚ôªÔ∏è Code Refactoring"
  | .docs => "üìö Documentation"
  | .style => "üíÑ Styles"
  | .tst => "üß™ Tests"
  | .chore => "üîß Chores"
  | .other => "üìù Other Changes"
  | .revert => "üìù Other Changes"

/-- Bullet line of generateReleaseNotes:
`- <message> by @<author_name || author_email>`. -/
def commitLine (c : Commit) : String :=
  "- " ++ c.message ++ " by @" ++ jsOrStr (some c.author_name) c.author_email ++ "\n"

/-- Section rendered by generateReleaseNotes for one non-empty bucket. -/
def bucketSection (t : CommitType) (cs : List Commit) : String :=
  if cs.length > 0 then
    "### " ++ getCommitTypeLabel t ++ "\n" ++ String.join (cs.map commitLine) ++ "\n"
  else ""

/-- generateReleaseNotes from release-service.ts: heading, then one section
per non-empty bucket in Object.entries order of the grouped object. -/
def generateReleaseNotes (tagName : String) (commits : List Commit) : String :=
  "## Release Notes for " ++ tagName ++ "\n\n" ++
    String.join ((groupCommitsByType commits).map fun p => bucketSection p.1 p.2)

/- ### semver model
Modelled from the external `semver` npm package (not repository code): the
default-mode grammar `^v?MAJOR.MINOR.PATCH(-prerelease)?(+build)?$` after
trimming, numeric components without leading zeros, and `inc` without an
explicit identifier. `semver.inc` returns null (here `none`) when the input
does not parse, and `semver.prerelease` returns null unless the version
parses with a non-empty prerelease list. -/

/-- A prerelease identifier: numeric or alphanumeric. -/
inductive PreId where
  | num (n : Nat)
  | str (s : String)
deriving DecidableEq, Repr

/-- A parsed semantic version (the build metadata is validated by the
grammar but dropped by `version`/`format`, so it is not stored). -/
structure SemVer where
  major : Nat
  minor : Nat
  patch : Nat
  pre : List PreId
deriving DecidableEq, Repr

/-- Digit run at the front of a character list. -/
def spanDigits (cs : List Char) : List Char × List Char :=
  (cs.takeWhile Char.isDigit, cs.dropWhile Char.isDigit)

/-- Numeric value of a digit list. -/
def digitsToNat (ds : List Char) : Nat :=
  ds.foldl (fun n d => n * 10 + (d.toNat - 48)) 0

/-- Strict numeric component: non-empty digits, no leading zero except "0". -/
def parseNumStrict (ds : List Char) : Option Nat :=
  match ds with
  | [] => none
  | ['0'] => some 0
  | d :: _ => if d = '0' then none else some (digitsToNat ds)

/-- Split a character list on '.' separators. -/
def splitOnDot (cs : List Char) : List (List Char) :=
  match cs with
  | [] => [[]]
  | '.' :: rest => [] :: splitOnDot rest
  | c :: rest =>
    match splitOnDot rest with
    | [] => [[c]]
    | p :: ps => (c :: p) :: ps

/-- Character class `[0-9A-Za-z-]` of prerelease/build identifiers. -/
def isIdChar (c : Char) : Bool :=
  c.isDigit || c.isUpper || c.isLower || c = '-'

/-- One prerelease identifier: non-empty, id characters only; an all-digit
identifier must have no leading zero and is numeric. -/
def parsePreId (cs : List Char) : Option PreId :=
  if cs = [] then none
  else if !(cs.all isIdChar) then none
  else if cs.all Char.isDigit then (parseNumStrict cs).map PreId.num
  else some (PreId.str (String.mk cs))

/-- One build identifier: non-empty, id characters only (leading zeros ok). -/
def parseBuildId (cs : List Char) : Option Unit :=
  if cs = [] then none
  else if !(cs.all isIdChar) then none
  else some ()

/-- All-some traversal. -/
def traverseOption {α β : Type} (f : α → Option β) : List α → Option (List β)
  | [] => some []
  | a :: as' =>
    match f a, traverseOption f as' with
    | some b, some bs => some (b :: bs)
    | _, _ => none

/-- Split at the first '+' (prerelease part, build part). -/
def splitAtPlus (cs : List Char) : List Char × Option (List Char) :=
  match cs with
  | [] => ([], none)
  | '+' :: rest => ([], some rest)
  | c :: rest =>
    match splitAtPlus rest with
    | (p, b) => (c :: p, b)

/-- Parse `MAJOR.MINOR.PATCH` and the optional `-pre` / `+build` tail. -/
def parseSemVerChars (cs : List Char) : Option SemVer :=
  let cs := match cs with
    | 'v' :: rest => rest
    | _ => cs
  match spanDigits cs with
  | (d1, rest1) =>
    match parseNumStrict d1, rest1 with
    | some major, '.' :: rest2 =>
      match spanDigits rest2 with
      | (d2, rest3) =>
        match parseNumStrict d2, rest3 with
        | some minor, '.' :: rest4 =>
          match spanDigits rest4 with
          | (d3, rest5) =>
            match parseNumStrict d3 with
            | some patch =>
              match rest5 with
              | [] => some ⟨major, minor, patch, []⟩
              | '-' :: tail =>
                match splitAtPlus tail with
                | (preChars, buildChars) =>
                  match traverseOption parsePreId (splitOnDot preChars) with
                  | some pre =>
                    match buildChars with
                    | none => some ⟨major, minor, patch, pre⟩
                    | some b =>
                      match traverseOption parseBuildId (splitOnDot b) with
                      | some _ => some ⟨major, minor, patch, pre⟩
                      | none => none
                  | none => none
              | '+' :: tail =>
                match traverseOption parseBuildId (splitOnDot tail) with
                | some _ => some ⟨major, minor, patch, []⟩
                | none => none
              | _ => none
            | none => none
        | _, _ => none
    | _, _ => none

/-- JS String.prototype.trim whitespace (the members that occur in version
strings). -/
def isJsSpace (c : Char) : Bool :=
  c = ' ' ∨ c = '\t' ∨ c = '\n' ∨ c = '\r' ∨ c = '\x0b' ∨ c = '\x0c'

/-- JS String.prototype.trim on a character list. -/
def trimChars (cs : List Char) : List Char :=
  ((cs.dropWhile isJsSpace).reverse.dropWhile isJsSpace).reverse

/-- semver.parse in default mode: length bound, trim, grammar. -/
def parseSemVer (s : String) : Option SemVer :=
  if s.toList.length > 256 then none
  else parseSemVerChars (trimChars s.toList)

/-- Increment the last numeric prerelease identifier, or report failure. -/
def incLastNumericPre : List PreId → Option (List PreId)
  | [] => none
  | p :: ps =>
    match incLastNumericPre ps with
    | some ps2 => some (p :: ps2)
    | none =>
      match p with
      | .num n => some (PreId.num (n + 1) :: ps)
      | .str _ => none

/-- The 'pre' step of SemVer.inc with no identifier: empty prerelease
becomes [0]; otherwise the last numeric identifier is incremented, and if
none is numeric a 0 is appended. -/
def incPreStep (pre : List PreId) : List PreId :=
  match pre with
  | [] => [PreId.num 0]
  | _ =>
    match incLastNumericPre pre with
    | some pre2 => pre2
    | none => pre ++ [PreId.num 0]

/-- ReleaseType from release-service.ts. -/
inductive ReleaseType where
  | major | minor | patch | prerelease
deriving DecidableEq, Repr

/-- SemVer.inc (no identifier): the standard increment rules of the semver
package, including the keep-version cases when a prerelease is dropped. -/
def incSemVer (v : SemVer) (t : ReleaseType) : SemVer :=
  match t with
  | .major =>
    if v.minor ≠ 0 ∨ v.patch ≠ 0 ∨ v.pre = [] then ⟨v.major + 1, 0, 0, []⟩
    else ⟨v.major, 0, 0, []⟩
  | .minor =>
    if v.patch ≠ 0 ∨ v.pre = [] then ⟨v.major, v.minor + 1, 0, []⟩
    else ⟨v.major, v.minor, 0, []⟩
  | .patch =>
    if v.pre = [] then ⟨v.major, v.minor, v.patch + 1, []⟩
    else ⟨v.major, v.minor, v.patch, []⟩
  | .prerelease =>
    let base := if v.pre = [] then ⟨v.major, v.minor, v.patch + 1, []⟩ else v
    { base with pre := incPreStep base.pre }

/-- Rendering of one prerelease identifier. -/
def renderPreId : PreId → String
  | .num n => toString n
  | .str s => s

/-- SemVer.format: `M.m.p` with `-ids` joined by '.' when present. -/
def renderSemVer (v : SemVer) : String :=
  toString v.major ++ "." ++ toString v.minor ++ "." ++ toString v.patch ++
    (match v.pre with
     | [] => ""
     | p :: ps =>
       "-" ++ (ps.foldl (fun acc q => acc ++ "." ++ renderPreId q) (renderPreId p)))

/-- semver.inc: null on unparseable input, else the incremented version. -/
def semverInc (s : String) (t : ReleaseType) : Option String :=
  (parseSemVer s).map fun v => renderSemVer (incSemVer v t)

/-- The `semver.prerelease(x) !== null` test applied to a string-or-null
newVersion: false for null, else true iff the string parses with a
non-empty prerelease list. -/
def semverPrereleaseSome (x : Option String) : Bool :=
  match x with
  | none => false
  | some s =>
    match parseSemVer s with
    | none => false
    | some v => v.pre ≠ []

/- ### GitClient (lib/git-client.ts)
The simple-git collaborator is a `World` field; the client methods below are
the source's logic over those outcomes. -/

/-- RepoInfo: owner/repo parsed from the remote URL. -/
structure RepoInfo where
  owner : String
  repo : String
deriving DecidableEq, Repr

/-- A configured git remote (only the fetch ref is read). -/
structure Remote where
  fetch : String
deriving DecidableEq, Repr

/-- Tags result of simple-git: all tag names and the optional latest. -/
structure TagsResult where
  all : List String
  latest : Option String
deriving DecidableEq, Repr

/-- Error thrown by GitClient.getRemoteUrl when no remote is configured. -/
def noRemotesError : OrbitItError :=
  ⟨"No remotes found", [⟨"Please add a remote to your git repository."⟩]⟩

/-- Error thrown by GitClient.getRepoInfo on a non-matching remote URL. -/
def invalidRemoteFormatError : OrbitItError :=
  ⟨"Invalid remote URL format",
   [⟨"The remote URL does not match the expected GitHub format."⟩]⟩

/-- Error thrown by GitClient.getCommits when the log is empty. -/
def noCommitsClientError : OrbitItError :=
  ⟨"No commits found", [⟨"Please make some commits to the repository."⟩]⟩

/- Model of `remoteUrlRegex = /github\.com[:/](.+)\/(.+)(\.git)?$/` under
String.prototype.match: leftmost starting position wins; `(.+)` is greedy
and `.` excludes line terminators, so the first capture extends to the last
`/` of the tail that leaves a non-empty second capture, and `(\.git)?`
always matches empty because the greedy second capture reaches the end. -/

/-- Backtracking split of the tail after `github.com[:/]`: the split at the
last `/` that leaves a non-empty suffix (the greedy `(.+)\/(.+)` choice).
The caller still has to reject an empty first component. -/
def lastGoodSplit : List Char → Option (List Char × List Char)
  | [] => none
  | c :: rest =>
    match lastGoodSplit rest with
    | some (g1, g2) => some (c :: g1, g2)
    | none => if c = '/' ∧ rest ≠ [] then some ([], rest) else none

/-- Attempt of remoteUrlRegex at one start position: the literal
`github.com`, a `:` or `/`, then the two captures. A line terminator in the
tail defeats every `(.+)\/(.+)$` split. -/
def remoteMatchHere (cs : List Char) : Option (List Char × List Char) :=
  match litPrefix ['g','i','t','h','u','b','.','c','o','m'] cs with
  | none => none
  | some after =>
    match after with
    | [] => none
    | sep :: t =>
      if (sep = ':' ∨ sep = '/') ∧ ¬ t.contains '\n' then
        match lastGoodSplit t with
        | some (g1, g2) => if g1 = [] then none else some (g1, g2)
        | none => none
      else none

/-- Unanchored search of remoteUrlRegex: first start position at which the
pattern matches, returning the two captures. -/
def remoteUrlRegexSearch : List Char → Option (List Char × List Char)
  | [] => none
  | c :: rest =>
    match remoteMatchHere (c :: rest) with
    | some r => some r
    | none => remoteUrlRegexSearch rest

/-- The `removeGitFromUrlRegex = /\.git$/` replacement on the second
capture. -/
def removeGitSuffix (cs : List Char) : List Char :=
  if cs.length ≥ 4 ∧ cs.drop (cs.length - 4) = ['.','g','i','t'] then
    cs.take (cs.length - 4)
  else cs

/-- GitClient.getRemoteUrl: throws when no remotes are configured, else the
fetch URL of the first remote. -/
def getRemoteUrl (remotes : Except Thrown (List Remote)) : Except Thrown String :=
  match remotes with
  | .error t => .error t
  | .ok [] => .error (.orbit noRemotesError)
  | .ok (r :: _) => .ok r.fetch

/-- Match-and-extract step of GitClient.getRepoInfo on one URL string. -/
def parseRepoInfo (url : String) : Option RepoInfo :=
  match remoteUrlRegexSearch url.toList with
  | none => none
  | some (g1, g2) => some ⟨String.mk g1, String.mk (removeGitSuffix g2)⟩

/-- GitClient.getRepoInfo (src/unnamed/part_002): remote URL, regex match,
InvalidRemoteFormat error on a non-match, `.git` stripped from the repo. -/
def GitClient.getRepoInfo (remotes : Except Thrown (List Remote)) :
    Except Thrown RepoInfo :=
  match getRemoteUrl remotes with
  | .error t => .error t
  | .ok url =>
    match parseRepoInfo url with
    | none => .error (.orbit invalidRemoteFormatError)
    | some info => .ok info

/-- GitClient.getCommits (src/unnamed/part_002): the underlying log result
is passed through, but an empty `log.all` makes the client itself throw
a 'No commits found' OrbitItError. -/
def GitClient.getCommits (logResult : Except Thrown (List Commit)) :
    Except Thrown (List Commit) :=
  match logResult with
  | .error t => .error t
  | .ok l => if l.length = 0 then .error (.orbit noCommitsClientError) else .ok l

/- ### World, mutations and configuration -/

/-- package.json contents as read by readJsonFile, restricted to the fields
the release service touches; `version` is an Option so the bump can store
the JS-null newVersion. -/
structure PackageJson where
  name : Option String
  version : Option String
deriving DecidableEq, Repr

/-- Side-effecting collaborator calls recorded by the embedding. -/
inductive Mutation where
  | writeJsonFile (path : String) (pkg : PackageJson)
  | writeFile (path : String) (content : String)
  | createTag (tagName : String) (tagMessage : String)
  | createRelease (owner repo tagName releaseName body : String)
      (prerelease draft : Bool)
  | pushTags
deriving DecidableEq, Repr

/-- Outcomes of every external collaborator call a release run can make.
Function-typed fields give the outcome for the argument the source passes. -/
structure World where
  checkAuth : Except Thrown Bool
  getRemotes : Except Thrown (List Remote)
  tags : Except Thrown TagsResult
  log : Option String → Except Thrown (List Commit)
  getCommitFiles : String → Except Thrown (List String)
  fg : List String → Except Thrown (List String)
  readJson : String → Except Thrown PackageJson
  writeJson : String → Except Thrown Unit
  readFile : String → Except Thrown String
  writeFile : String → Except Thrown Unit
  createTagRes : Except Thrown Unit
  createReleaseRes : Except Thrown Unit
  pushTagsRes : Except Thrown Unit

/-- Project environment enumeration of the config schema. -/
inductive Environment where
  | nodejs | python
deriving DecidableEq, Repr

/-- Versioning strategy enumeration of the config schema. -/
inductive VersioningStrategy where
  | fixed | independent
deriving DecidableEq, Repr

/-- The slice of ProjectConfig the release service reads. -/
structure ProjectConfig where
  version : String
  environment : Environment
  workspaces : List String
deriving DecidableEq, Repr

/-- The slice of the release config the release service reads. -/
structure ReleaseConfig where
  versioningStrategy : VersioningStrategy
deriving DecidableEq, Repr

/-- The loaded, validated configuration. -/
structure Config where
  project : ProjectConfig
  release : ReleaseConfig
deriving DecidableEq, Repr

/-- The `release` member of ReleaseOptions. -/
structure ReleaseRequest where
  type : ReleaseType
  draft : Option Bool
deriving DecidableEq, Repr

/-- ReleaseOptions from release-service.ts (optional flags stay optional;
the destructuring defaults are applied where the source applies them). -/
structure ReleaseOptions where
  release : ReleaseRequest
  dryRun : Option Bool
deriving DecidableEq, Repr

/-- ReleaseResult from release-service.ts; `version` is an Option String
because `semver.inc` can hand the code a null that flows into the result. -/
structure ReleaseResult where
  version : Option String
  tagName : String
  releaseNotes : String
deriving DecidableEq, Repr

/-- Node path.join for the two-segment joins the release service performs. -/
def pathJoin (a b : String) : String :=
  if a = "" then b
  else if jsEndsWith a "/" then a ++ b
  else a ++ "/" ++ b

/-- Node path.dirname. -/
def pathDirname (p : String) : String :=
  let cs := p.toList
  if cs.contains '/' then
    let tailLen := (cs.reverse.takeWhile (· ≠ '/')).length
    let pre := cs.take (cs.length - 1 - tailLen)
    if pre = [] then "/" else String.mk pre
  else "."

/-- Node path.basename. -/
def pathBasename (p : String) : String :=
  String.mk (p.toList.reverse.takeWhile (· ≠ '/')).reverse

/-- The `tags.latest || undefined` coercion: an absent or empty-string
latest becomes undefined. -/
def jsLatest (x : Option String) : Option String :=
  match x with
  | some s => if s = "" then none else some s
  | none => none

/- ### Manifest bumpers (release-service.ts) -/

/-- Error thrown by the dead `if (!packageJsonPaths)` branch of
nodeJsBumpPackages. -/
def noPackageJsonFilesError : OrbitItError :=
  ⟨"No package.json files found.",
   [⟨"Please check your workspace configuration."⟩]⟩

/-- Error thrown by pythonBumpPackages when fast-glob resolves zero of the
requested Python version files. -/
def noPythonFilesError : OrbitItError :=
  ⟨"No Python version files found.",
   [⟨"Please check your workspace configuration."⟩]⟩

/-- JS truthiness of an array value: an array object is always truthy, even
when empty, so `!packageJsonPaths` is false for every fast-glob result. -/
def jsArrayFalsy (_ : List String) : Bool := false

/-- First error among the settled outcomes of a Promise.all batch. -/
def firstThrown : List (Option Thrown) → Option Thrown
  | [] => none
  | some t :: _ => some t
  | none :: rest => firstThrown rest

/-- One item of the nodeJsBumpPackages batch: read the manifest, set its
version field to newVersion, write it back. The write attempt is the
recorded mutation. -/
def nodeBumpItem (w : World) (newVersion : Option String) (p : String) :
    Option Thrown × List Mutation :=
  match w.readJson p with
  | .error t => (some t, [])
  | .ok pkg =>
    let pkg2 : PackageJson := { pkg with version := newVersion }
    match w.writeJson p with
    | .error t => (some t, [Mutation.writeJsonFile p pkg2])
    | .ok _ => (none, [Mutation.writeJsonFile p pkg2])

/-- Try body of nodeJsBumpPackages: fast-glob over the workspace patterns,
the (unreachable) emptiness guard, then the parallel per-file bump. All
items run; the batch fails with the first rejection. -/
def nodeJsBumpCore (w : World) (newVersion : Option String)
    (workspaces : List String) : Except Thrown Unit × List Mutation :=
  match w.fg workspaces with
  | .error t => (.error t, [])
  | .ok paths =>
    if jsArrayFalsy paths then (.error (.orbit noPackageJsonFilesError), [])
    else
      let items := paths.map (nodeBumpItem w newVersion)
      let ms := (items.map Prod.snd).flatten
      match firstThrown (items.map Prod.fst) with
      | some t => (.error t, ms)
      | none => (.ok (), ms)

/-- nodeJsBumpPackages: try body plus the catch wrapper; the returned
FunctionResult carries no data, only the optional error. -/
def nodeJsBumpPackages (w : World) (newVersion : Option String)
    (workspaces : List String) : FunctionResult Unit × List Mutation :=
  match nodeJsBumpCore w newVersion workspaces with
  | (.ok _, ms) => (⟨none, none⟩, ms)
  | (.error t, ms) => (⟨wrapCatch "Failed to bump version." t, none⟩, ms)

/-- JS `\s` whitespace class (the members that occur in manifests). -/
def isWsChar (c : Char) : Bool :=
  c = ' ' ∨ c = '\t' ∨ c = '\n' ∨ c = '\r' ∨ c = '\x0b' ∨ c = '\x0c'

/-- Quote class `["']` of the bump regexes. -/
def isQuoteChar (c : Char) : Bool := c = '"' ∨ c = '\''

/-- The lazy `.*?["']` tail: consume non-newline characters up to the first
quote (inclusive), returning what follows the quote. -/
def lazyToQuote : List Char → Option (List Char)
  | [] => none
  | c :: cs =>
    if isQuoteChar c then some cs
    else if c = '\n' then none
    else lazyToQuote cs

/-- Match of `<lit>\s*=\s*["'].*?["']` at the head of cs, returning the
remainder after the matched span. -/
def versionSpanRest (lit : List Char) (cs : List Char) : Option (List Char) :=
  match litPrefix lit cs with
  | none => none
  | some r1 =>
    match r1.dropWhile isWsChar with
    | '=' :: r3 =>
      match r3.dropWhile isWsChar with
      | q :: r5 => if isQuoteChar q then lazyToQuote r5 else none
      | [] => none
    | _ => none

/-- First-match replacement for the /m-anchored bump regexes: the pattern is
tried at the start of the string and after every line terminator, and only
the first matched span is replaced. -/
def replaceFirstMultiline (lit repl : List Char) :
    List Char → Bool → List Char
  | [], _ => []
  | c :: rest, atLineStart =>
    if atLineStart then
      match versionSpanRest lit (c :: rest) with
      | some rem => repl ++ rem
      | none => c :: replaceFirstMultiline lit repl rest (c = '\n' ∨ c = '\r')
    else c :: replaceFirstMultiline lit repl rest (c = '\n' ∨ c = '\r')

/-- Global replacement for the setup.py bump regex: every match anywhere in
the string is replaced, scanning left to right and resuming after each
replaced span. Fuel counts scanning steps; every step strictly shrinks the
remaining input, so `length + 1` fuel is never exhausted. -/
def replaceGlobalAux (lit repl : List Char) : Nat → List Char → List Char
  | 0, cs => cs
  | _ + 1, [] => []
  | fuel + 1, c :: rest =>
    match versionSpanRest lit (c :: rest) with
    | some rem => repl ++ replaceGlobalAux lit repl fuel rem
    | none => c :: replaceGlobalAux lit repl fuel rest

/-- updatePyprojectToml content rewrite:
`content.replace(/^version\s*=\s*["'].*?["']/m, 'version = "N"')`. -/
def pyprojectRewrite (newVersion : Option String) (content : String) : String :=
  String.mk (replaceFirstMultiline
    ['v','e','r','s','i','o','n']
    ("version = \"" ++ jsTemplate newVersion ++ "\"").toList
    content.toList true)

/-- updateSetupPy content rewrite:
`content.replace(/version\s*=\s*["'].*?["']/g, 'version="N"')`. -/
def setupPyRewrite (newVersion : Option String) (content : String) : String :=
  let cs := content.toList
  String.mk (replaceGlobalAux
    ['v','e','r','s','i','o','n']
    ("version=\"" ++ jsTemplate newVersion ++ "\"").toList
    (cs.length + 1) cs)

/-- updatePythonInit content rewrite:
`content.replace(/^__version__\s*=\s*["'].*?["']/m, '__version__ = "N"')`. -/
def pythonInitRewrite (newVersion : Option String) (content : String) : String :=
  String.mk (replaceFirstMultiline
    ['_','_','v','e','r','s','i','o','n','_','_']
    ("__version__ = \"" ++ jsTemplate newVersion ++ "\"").toList
    content.toList true)

/-- Read-rewrite-write step shared by the three update helpers. -/
def pyUpdateFile (w : World) (rewrite : String → String) (p : String) :
    Option Thrown × List Mutation :=
  match w.readFile p with
  | .error t => (some t, [])
  | .ok content =>
    let updated := rewrite content
    match w.writeFile p with
    | .error t => (some t, [Mutation.writeFile p updated])
    | .ok _ => (none, [Mutation.writeFile p updated])

/-- One item of the pythonBumpPackages batch, dispatching on the filename
suffix exactly as the source does. -/
def pyBumpItem (w : World) (newVersion : Option String) (p : String) :
    Option Thrown × List Mutation :=
  if jsEndsWith p "pyproject.toml" then
    pyUpdateFile w (pyprojectRewrite newVersion) p
  else if jsEndsWith p "setup.py" then
    pyUpdateFile w (setupPyRewrite newVersion) p
  else if jsEndsWith p "__init__.py" then
    pyUpdateFile w (pythonInitRewrite newVersion) p
  else (none, [])

/-- Try body of pythonBumpPackages: fast-glob over the requested files, the
global emptiness check (existingFiles.length === 0), then the parallel
per-file update. -/
def pythonBumpCore (w : World) (newVersion : Option String)
    (pythonFiles : List String) : Except Thrown Unit × List Mutation :=
  match w.fg pythonFiles with
  | .error t => (.error t, [])
  | .ok existing =>
    if existing.length = 0 then (.error (.orbit noPythonFilesError), [])
    else
      let items := existing.map (pyBumpItem w newVersion)
      let ms := (items.map Prod.snd).flatten
      match firstThrown (items.map Prod.fst) with
      | some t => (.error t, ms)
      | none => (.ok (), ms)

/-- pythonBumpPackages: try body plus the catch wrapper. -/
def pythonBumpPackages (w : World) (newVersion : Option String)
    (pythonFiles : List String) : FunctionResult Unit × List Mutation :=
  match pythonBumpCore w newVersion pythonFiles with
  | (.ok _, ms) => (⟨none, none⟩, ms)
  | (.error t, ms) => (⟨wrapCatch "Failed to bump Python version." t, none⟩, ms)

/- ### Release orchestrator (release-service.ts) -/

/-- Error thrown by the strategy bodies when the commit list is empty (dead
for this GitClient, which already throws inside getCommits). -/
def noCommitsServiceError : OrbitItError :=
  ⟨"No commits found", [⟨"Please make some changes before releasing."⟩]⟩

/-- Error thrown by execute when the GitHub token check returns false. -/
def tokenInvalidError : OrbitItError :=
  ⟨"GitHub token is not valid", [⟨"Please check your GitHub token."⟩]⟩

/-- Error thrown by the independent strategy when no package changed. -/
def noPackagesChangedError : OrbitItError :=
  ⟨"No packages have changes",
   [⟨"Please make changes to packages before releasing."⟩]⟩

/-- A changed package of the independent strategy. -/
structure ChangedPackage where
  name : String
  version : String
  packagePath : String
deriving DecidableEq, Repr

/-- Promise.all over a list of settled outcomes: first rejection in list
order, else the list of values. -/
def collectAll {α : Type} : List (Except Thrown α) → Except Thrown (List α)
  | [] => .ok []
  | .error t :: _ => .error t
  | .ok a :: rest =>
    match collectAll rest with
    | .error t => .error t
    | .ok as' => .ok (a :: as')

/-- Per-workspace step of getChangedPackages: a workspace whose prefix
matches some changed file is read (readJsonFile failures are swallowed by
the inner catch, falling back to the directory name and version 0.0.0). -/
def changedPackageFor (w : World) (changedFiles : List String)
    (workspace : String) : Option ChangedPackage :=
  if changedFiles.any (fun f => jsStartsWith f workspace) then
    let packageJsonPath := pathJoin workspace "package.json"
    match w.readJson packageJsonPath with
    | .ok pkg =>
      some ⟨jsOrStr pkg.name workspace, jsOrStr pkg.version "0.0.0",
            packageJsonPath⟩
    | .error _ =>
      some ⟨pathBasename workspace, "0.0.0", packageJsonPath⟩
  else none

/-- getChangedPackages: gather the files of every commit (Promise.all),
then keep each configured workspace that some changed file path starts
with, in workspace order. (The source collects paths into a Set; only
membership is ever used, so the duplicate-free property is irrelevant.) -/
def getChangedPackages (cfg : Config) (w : World) (commits : List Commit) :
    Except Thrown (List ChangedPackage) :=
  match collectAll (commits.map fun c => w.getCommitFiles c.hash) with
  | .error t => .error t
  | .ok fileLists =>
    let changedFiles := fileLists.flatten
    .ok (cfg.project.workspaces.filterMap (changedPackageFor w changedFiles))

/-- Mutating tail shared by both strategies: create the local tag, create
the GitHub release, push tags; each call is recorded, and a failure aborts
the rest with the partial trace preserved (no rollback). -/
def publishTail (info : RepoInfo) (w : World) (tagName : String)
    (releaseNotes : String) (isPre draft : Bool)
    (result : ReleaseResult) (ms : List Mutation) :
    Except Thrown ReleaseResult × List Mutation :=
  let ms1 := ms ++ [Mutation.createTag tagName ("Release " ++ tagName)]
  match w.createTagRes with
  | .error t => (.error t, ms1)
  | .ok _ =>
    let ms2 := ms1 ++ [Mutation.createRelease info.owner info.repo tagName
      tagName releaseNotes isPre draft]
    match w.createReleaseRes with
    | .error t => (.error t, ms2)
    | .ok _ =>
      let ms3 := ms2 ++ [Mutation.pushTags]
      match w.pushTagsRes with
      | .error t => (.error t, ms3)
      | .ok _ => (.ok result, ms3)

/-- Try body of versionStrategyFixedRelease. -/
def fixedCore (cfg : Config) (info : RepoInfo) (w : World)
    (opts : ReleaseOptions) : Except Thrown ReleaseResult × List Mutation :=
  let type := opts.release.type
  let draft := jsBoolOpt opts.release.draft
  let dryRun := jsBoolOpt opts.dryRun
  let currentVersion := cfg.project.version
  match w.tags with
  | .error t => (.error t, [])
  | .ok tags =>
    let latestTag := jsLatest tags.latest
    match GitClient.getCommits (w.log latestTag) with
    | .error t => (.error t, [])
    | .ok commits =>
      if commits.length = 0 then (.error (.orbit noCommitsServiceError), [])
      else
        let newVersion := semverInc currentVersion type
        let tagName := "v" ++ jsTemplate newVersion
        let releaseNotes := generateReleaseNotes tagName commits
        if dryRun then (.ok ⟨newVersion, tagName, releaseNotes⟩, [])
        else
          let isPre := semverPrereleaseSome newVersion
          let nodeMuts :=
            if cfg.project.environment = Environment.nodejs then
              (nodeJsBumpPackages w newVersion
                (cfg.project.workspaces.map (pathJoin · "package.json"))).2
            else []
          let pyMuts :=
            if cfg.project.environment = Environment.python then
              (pythonBumpPackages w newVersion
                ((cfg.project.workspaces.map fun ws =>
                  [pathJoin ws "pyproject.toml", pathJoin ws "setup.py",
                   pathJoin ws "__init__.py"]).flatten)).2
            else []
          publishTail info w tagName releaseNotes isPre draft
            ⟨newVersion, tagName, releaseNotes⟩ (nodeMuts ++ pyMuts)

/-- versionStrategyFixedRelease: try body plus the catch wrapper. -/
def versionStrategyFixedRelease (cfg : Config) (info : RepoInfo) (w : World)
    (opts : ReleaseOptions) : FunctionResult ReleaseResult × List Mutation :=
  match fixedCore cfg info w opts with
  | (.ok d, ms) => (⟨none, some d⟩, ms)
  | (.error t, ms) => (⟨wrapCatch "Failed to create release." t, none⟩, ms)

/-- Try body of versionStrategyIndependentRelease. -/
def independentCore (cfg : Config) (info : RepoInfo) (w : World)
    (opts : ReleaseOptions) : Except Thrown ReleaseResult × List Mutation :=
  let type := opts.release.type
  let draft := jsBoolOpt opts.release.draft
  let dryRun := jsBoolOpt opts.dryRun
  match w.tags with
  | .error t => (.error t, [])
  | .ok tags =>
    let latestTag := jsLatest tags.latest
    match GitClient.getCommits (w.log latestTag) with
    | .error t => (.error t, [])
    | .ok commits =>
      if commits.length = 0 then (.error (.orbit noCommitsServiceError), [])
      else
        match getChangedPackages cfg w commits with
        | .error t => (.error t, [])
        | .ok changedPackages =>
          match changedPackages with
          | [] => (.error (.orbit noPackagesChangedError), [])
          | packageToRelease :: _ =>
            let currentVersion := packageToRelease.version
            let newVersion := semverInc currentVersion type
            let tagName :=
              packageToRelease.name ++ "@" ++ jsTemplate newVersion
            let releaseNotes := generateReleaseNotes tagName commits
            if dryRun then (.ok ⟨newVersion, tagName, releaseNotes⟩, [])
            else
              let isPre := semverPrereleaseSome newVersion
              let nodeMuts :=
                if cfg.project.environment = Environment.nodejs then
                  (nodeJsBumpPackages w newVersion
                    [packageToRelease.packagePath]).2
                else []
              let pyMuts :=
                if cfg.project.environment = Environment.python then
                  (pythonBumpPackages w newVersion
                    [pathJoin (pathDirname packageToRelease.packagePath)
                       "pyproject.toml",
                     pathJoin (pathDirname packageToRelease.packagePath)
                       "setup.py",
                     pathJoin (pathDirname packageToRelease.packagePath)
                       "__init__.py"]).2
                else []
              publishTail info w tagName releaseNotes isPre draft
                ⟨newVersion, tagName, releaseNotes⟩ (nodeMuts ++ pyMuts)

/-- versionStrategyIndependentRelease: try body plus the catch wrapper. -/
def versionStrategyIndependentRelease (cfg : Config) (info : RepoInfo)
    (w : World) (opts : ReleaseOptions) :
    FunctionResult ReleaseResult × List Mutation :=
  match independentCore cfg info w opts with
  | (.ok d, ms) => (⟨none, some d⟩, ms)
  | (.error t, ms) => (⟨wrapCatch "Failed to create release." t, none⟩, ms)

/-- Try body of ReleaseService.execute: authenticate, resolve repo info,
dispatch on the configured strategy, and re-throw a strategy failure (a
missing error value means `throw undefined`, a non-Error throw). -/
def executeCore (cfg : Config) (w : World) (opts : ReleaseOptions) :
    Except Thrown ReleaseResult × List Mutation :=
  match w.checkAuth with
  | .error t => (.error t, [])
  | .ok isAuthenticated =>
    if !isAuthenticated then (.error (.orbit tokenInvalidError), [])
    else
      match GitClient.getRepoInfo w.getRemotes with
      | .error t => (.error t, [])
      | .ok repoInfo =>
        let inner :=
          if cfg.release.versioningStrategy = VersioningStrategy.fixed then
            versionStrategyFixedRelease cfg repoInfo w opts
          else
            versionStrategyIndependentRelease cfg repoInfo w opts
        match inner with
        | (⟨some e, _⟩, ms) => (.error (.orbit e), ms)
        | (⟨none, none⟩, ms) => (.error .nonError, ms)
        | (⟨none, some d⟩, ms) => (.ok d, ms)

/-- ReleaseService.execute: try body plus the catch wrapper; never throws,
always returns a FunctionResult (plus the mutation trace of the run). -/
def ReleaseService.execute (cfg : Config) (w : World) (opts : ReleaseOptions) :
    FunctionResult ReleaseResult × List Mutation :=
  match executeCore cfg w opts with
  | (.ok d, ms) => (⟨none, some d⟩, ms)
  | (.error t, ms) => (⟨wrapCatch "Failed to create release." t, none⟩, ms)

/- ### Spec-side definitions (written from the spec's words, for
refinement-style claims) -/

/-- Release result the spec expects from a fixed-strategy dry run: the
version computed from the config's current version, its `v` tag name, and
the notes over the commits since the latest tag; none when the read-only
prefix of the run cannot complete. -/
def fixedDryRunExpected (cfg : Config) (w : World) (type : ReleaseType) :
    Option ReleaseResult :=
  match w.tags with
  | .error _ => none
  | .ok tags =>
    match GitClient.getCommits (w.log (jsLatest tags.latest)) with
    | .error _ => none
    | .ok commits =>
      if commits.length = 0 then none
      else
        let newVersion := semverInc cfg.project.version type
        let tagName := "v" ++ jsTemplate newVersion
        some ⟨newVersion, tagName, generateReleaseNotes tagName commits⟩

/-- Release result the spec expects from an independent-strategy dry run:
the version computed from the first changed package's own version, its
`name@version` tag, and the notes over all commits. -/
def independentDryRunExpected (cfg : Config) (w : World) (type : ReleaseType) :
    Option ReleaseResult :=
  match w.tags with
  | .error _ => none
  | .ok tags =>
    match GitClient.getCommits (w.log (jsLatest tags.latest)) with
    | .error _ => none
    | .ok commits =>
      if commits.length = 0 then none
      else
        match getChangedPackages cfg w commits with
        | .error _ => none
        | .ok [] => none
        | .ok (pkg :: _) =>
          let newVersion := semverInc pkg.version type
          let tagName := pkg.name ++ "@" ++ jsTemplate newVersion
          some ⟨newVersion, tagName, generateReleaseNotes tagName commits⟩

/-- Section of the release notes as the spec words it: omitted when the
bucket is empty, else a level-3 heading and one bullet per commit in input
order, the author being the name if present else the email. -/
def specSection (t : CommitType) (cs : List Commit) : String :=
  if cs = [] then ""
  else
    "### " ++ getCommitTypeLabel t ++ "\n" ++
      String.join (cs.map fun c =>
        "- " ++ c.message ++ " by @" ++
          (if c.author_name ≠ "" then c.author_name else c.author_email) ++
          "\n") ++ "\n"

/-- Release notes as the spec words them: a level-2 heading naming the tag,
then one section per non-empty bucket in the fixed enumeration order, where
the bucket of a type holds the input commits classified to it, in order. -/
def releaseNotesSpec (tagName : String) (commits : List Commit) : String :=
  "## Release Notes for " ++ tagName ++ "\n\n" ++
    String.join (commitTypeOrder.map fun t =>
      specSection t (commits.filter fun c => classifyCommit c = t))

/-- Foreign-throw-free collaborator behaviour: every value a collaborator
throws is an `instanceof Error` (an OrbitItError or another Error). -/
def NoForeignThrows (w : World) : Prop :=
  w.checkAuth ≠ .error .nonError ∧
  w.getRemotes ≠ .error .nonError ∧
  w.tags ≠ .error .nonError ∧
  (∀ x, w.log x ≠ .error .nonError) ∧
  (∀ h, w.getCommitFiles h ≠ .error .nonError) ∧
  (∀ ps, w.fg ps ≠ .error .nonError) ∧
  (∀ p, w.readJson p ≠ .error .nonError) ∧
  (∀ p, w.writeJson p ≠ .error .nonError) ∧
  (∀ p, w.readFile p ≠ .error .nonError) ∧
  (∀ p, w.writeFile p ≠ .error .nonError) ∧
  w.createTagRes ≠ .error .nonError ∧
  w.createReleaseRes ≠ .error .nonError ∧
  w.pushTagsRes ≠ .error .nonError

/- ### Concrete inputs for witnesses and counterexamples -/

/-- Demo commit with a feat scope prefix. -/
def cFeat : Commit := ⟨"h1", "feat(cli): add flag", "Alice", "alice@example.com"⟩

/-- Demo commit with a fix prefix and no author name. -/
def cFix : Commit := ⟨"h2", "fix: y", "", "bob@example.com"⟩

/-- Demo world in which every collaborator call succeeds. -/
def wOk : World :=
  { checkAuth := .ok true
  , getRemotes := .ok [⟨"https://github.com/acme/widget.git"⟩]
  , tags := .ok ⟨["v1.0.0"], some "v1.0.0"⟩
  , log := fun _ => .ok [cFeat, cFix]
  , getCommitFiles := fun _ => .ok ["packages/app/src/index.ts"]
  , fg := fun ps => .ok ps
  , readJson := fun _ => .ok ⟨some "app", some "1.0.0"⟩
  , writeJson := fun _ => .ok ()
  , readFile := fun _ => .ok "version = \"1.0.0\"\n"
  , writeFile := fun _ => .ok ()
  , createTagRes := .ok ()
  , createReleaseRes := .ok ()
  , pushTagsRes := .ok () }

/-- Demo world whose commit log since the latest tag is empty. -/
def wEmptyLog : World := { wOk with log := fun _ => .ok [] }

/-- Demo world with no existing tags (first-release scenario). -/
def wNoTags : World := { wOk with tags := .ok ⟨[], none⟩ }

/-- Demo world in which the auth check throws a non-Error value. -/
def wForeignThrow : World := { wOk with checkAuth := .error .nonError }

/-- Demo world in which fast-glob resolves no files at all. -/
def wEmptyGlob : World := { wOk with fg := fun _ => .ok [] }

/-- Demo world in which fast-glob resolves only pkg-a's pyproject.toml
(pkg-b has none of the three Python version files). -/
def wOnlyPkgA : World := { wOk with fg := fun _ => .ok ["pkg-a/pyproject.toml"] }

/-- Demo Node monorepo config with one workspace. -/
def cfgNode : Config :=
  ⟨⟨"1.0.0", Environment.nodejs, ["packages/app"]⟩,
   ⟨VersioningStrategy.fixed⟩⟩

/-- Demo config whose current version is not parseable semver. -/
def cfgBadVersion : Config :=
  ⟨⟨"not-semver", Environment.nodejs, ["packages/app"]⟩,
   ⟨VersioningStrategy.fixed⟩⟩

/-- Demo Python monorepo config with the two workspaces pkg-a and pkg-b. -/
def cfgPy : Config :=
  ⟨⟨"1.0.0", Environment.python, ["pkg-a", "pkg-b"]⟩,
   ⟨VersioningStrategy.fixed⟩⟩

/-- Demo repo info. -/
def infoDemo : RepoInfo := ⟨"acme", "widget"⟩

/-- Dry-run minor release options. -/
def optsDry : ReleaseOptions := ⟨⟨ReleaseType.minor, none⟩, some true⟩

/-- Mutating minor release options (dryRun left undefined). -/
def optsWet : ReleaseOptions := ⟨⟨ReleaseType.minor, none⟩, none⟩

/-- The Python version-file list the fixed strategy builds for cfgPy. -/
def pyFilesDemo : List String :=
  ((cfgPy.project.workspaces.map fun ws =>
    [pathJoin ws "pyproject.toml", pathJoin ws "setup.py",
     pathJoin ws "__init__.py"]).flatten)

/- ### Theorems settling the claims -/

/-- Pushing a commit onto a grouped object in canonical form appends it to
the bucket of its type and leaves every other bucket unchanged. -/
theorem pushGrouped_map (f : CommitType → List Commit) (t : CommitType) (c : Commit) :
    pushGrouped (commitTypeOrder.map fun u => (u, f u)) t c =
      commitTypeOrder.map fun u => (u, if u = t then f u ++ [c] else f u) := by
  unfold pushGrouped
  rw [List.map_map]
  apply List.map_congr_left
  intro u _
  by_cases h : u = t <;> simp [h]

/-- Folding the grouping step over a commit list appends, per category, the
commits classified to it, in input order. -/
theorem groupCommitsByType_foldl (cs : List Commit) (f : CommitType → List Commit) :
    cs.foldl (fun g c => pushGrouped g (classifyCommit c) c)
        (commitTypeOrder.map fun u => (u, f u)) =
      commitTypeOrder.map fun u => (u, f u ++ cs.filter fun c => classifyCommit c = u) := by
  induction cs generalizing f with
  | nil => simp
  | cons c cs ih =>
    rw [List.foldl_cons, pushGrouped_map f (classifyCommit c) c,
      ih fun u => if u = classifyCommit c then f u ++ [c] else f u]
    apply List.map_congr_left
    intro u _
    by_cases h : classifyCommit c = u
    · simp [h, List.filter_cons]
    · have h2 : ¬ (u = classifyCommit c) := fun hh => h hh.symm
      simp [h, h2, List.filter_cons]

/-- Characterisation of groupCommitsByType: the grouped object lists the ten
categories in declaration order, each mapped to the input commits classified
to it, in input order. -/
theorem groupCommitsByType_eq (commits : List Commit) :
    groupCommitsByType commits =
      commitTypeOrder.map fun t => (t, commits.filter fun c => classifyCommit c = t) := by
  have h := groupCommitsByType_foldl commits fun _ => []
  simpa [groupCommitsByType, initGrouped] using h

/-- C4: every commit whose message matches the conventional-commit regex is
placed in the bucket of its matched literal type and every other commit in
the `other` bucket (grouping equals per-type filtering by the classifier, in
input order); the grouped result always carries all ten category keys in the
declared order, also for the empty input; and a message prefixed with
`revert:` is never captured by the regex, so it lands in `other`. -/
theorem claim_c4_grouping :
    (∀ commits : List Commit,
        groupCommitsByType commits =
          commitTypeOrder.map fun t =>
            (t, commits.filter fun c => classifyCommit c = t)) ∧
    (∀ s : String, commitMessageRegexCapture ("revert:" ++ s).toList = none) := by
  refine ⟨groupCommitsByType_eq, fun s => ?_⟩
  have h1 : ("revert:" ++ s).toList = 'r' :: 'e' :: 'v' :: 'e' :: 'r' :: 't' :: ':' :: s.toList := by
    show ("revert:" ++ s).data = _
    rw [String.data_append]
    rfl
  rw [h1]
  rfl

/-- The bullet line renders the author name when non-empty, else the email. -/
theorem commitLine_eq (c : Commit) :
    commitLine c =
      "- " ++ c.message ++ " by @" ++
        (if c.author_name ≠ "" then c.author_name else c.author_email) ++ "\n" := by
  unfold commitLine jsOrStr
  by_cases h : c.author_name = "" <;> simp [h]

/-- The rendered bucket section coincides with the spec's wording of a
section. -/
theorem bucketSection_eq_specSection (t : CommitType) (cs : List Commit) :
    bucketSection t cs = specSection t cs := by
  unfold bucketSection specSection
  cases cs with
  | nil => simp
  | cons c cs =>
    have hmap : List.map commitLine (c :: cs) =
        List.map (fun c => "- " ++ c.message ++ " by @" ++
          (if c.author_name ≠ "" then c.author_name else c.author_email) ++ "\n")
          (c :: cs) :=
      List.map_congr_left fun a _ => commitLine_eq a
    simp [hmap]

/-- C5: the generated release notes are exactly the Markdown document the
spec describes: a level-2 heading naming the tag, then one level-3 section
per non-empty commit-type bucket in the fixed enumeration order, each a
bullet list with one `- <message> by @<author>` line per commit (author name
if present, else email), empty buckets omitted and input order preserved
within each section. -/
theorem claim_c5_release_notes (tagName : String) (commits : List Commit) :
    generateReleaseNotes tagName commits = releaseNotesSpec tagName commits := by
  unfold generateReleaseNotes releaseNotesSpec
  rw [groupCommitsByType_eq, List.map_map]
  congr 1
  congr 1
  apply List.map_congr_left
  intro t _
  exact bucketSection_eq_specSection t _

/-- Dry-run behaviour of the fixed strategy: empty mutation trace and data
equal to the spec-side expected result. -/
theorem fixed_dry (cfg : Config) (info : RepoInfo) (w : World)
    (opts : ReleaseOptions) (h : jsBoolOpt opts.dryRun = true) :
    (versionStrategyFixedRelease cfg info w opts).2 = [] ∧
    (versionStrategyFixedRelease cfg info w opts).1.data =
      fixedDryRunExpected cfg w opts.release.type := by
  unfold versionStrategyFixedRelease fixedCore fixedDryRunExpected
  rw [h]
  cases htags : w.tags with
  | error t => simp
  | ok tags =>
    cases hcs : GitClient.getCommits (w.log (jsLatest tags.latest)) with
    | error t => simp [hcs]
    | ok commits =>
      by_cases hlen : commits = [] <;> simp [hcs, hlen]

/-- Dry-run behaviour of the independent strategy: empty mutation trace and
data equal to the spec-side expected result. -/
theorem independent_dry (cfg : Config) (info : RepoInfo) (w : World)
    (opts : ReleaseOptions) (h : jsBoolOpt opts.dryRun = true) :
    (versionStrategyIndependentRelease cfg info w opts).2 = [] ∧
    (versionStrategyIndependentRelease cfg info w opts).1.data =
      independentDryRunExpected cfg w opts.release.type := by
  unfold versionStrategyIndependentRelease independentCore independentDryRunExpected
  rw [h]
  cases htags : w.tags with
  | error t => simp
  | ok tags =>
    cases hcs : GitClient.getCommits (w.log (jsLatest tags.latest)) with
    | error t => simp [hcs]
    | ok commits =>
      by_cases hlen : commits = []
      · simp [hcs, hlen]
      · cases hch : getChangedPackages cfg w commits with
        | error t => simp [hcs, hlen, hch]
        | ok changed =>
          cases changed with
          | nil => simp [hcs, hlen, hch]
          | cons pkg rest => simp [hcs, hlen, hch]

/-- C1: with the dry-run flag set, both strategies record no mutation at all
(no manifest write, no tag, no remote release, no tag push), and whenever
the run reaches the computation point it returns exactly the computed
version, tag name and release notes (data equals the spec-side expected
result for every collaborator behaviour). -/
theorem claim_c1_dry_run_frame (cfg : Config) (info : RepoInfo) (w : World)
    (opts : ReleaseOptions) (hdry : jsBoolOpt opts.dryRun = true) :
    (versionStrategyFixedRelease cfg info w opts).2 = [] ∧
    (versionStrategyFixedRelease cfg info w opts).1.data =
      fixedDryRunExpected cfg w opts.release.type ∧
    (versionStrategyIndependentRelease cfg info w opts).2 = [] ∧
    (versionStrategyIndependentRelease cfg info w opts).1.data =
      independentDryRunExpected cfg w opts.release.type := by
  obtain ⟨h1, h2⟩ := fixed_dry cfg info w opts hdry
  obtain ⟨h3, h4⟩ := independent_dry cfg info w opts hdry
  exact ⟨h1, h2, h3, h4⟩

/-- Witness for C1 at a concrete config, world and dry-run options. -/
theorem claim_c1_witness :
    jsBoolOpt optsDry.dryRun = true ∧
    ((versionStrategyFixedRelease cfgNode infoDemo wOk optsDry).2 = [] ∧
     (versionStrategyFixedRelease cfgNode infoDemo wOk optsDry).1.data =
       fixedDryRunExpected cfgNode wOk optsDry.release.type ∧
     (versionStrategyIndependentRelease cfgNode infoDemo wOk optsDry).2 = [] ∧
     (versionStrategyIndependentRelease cfgNode infoDemo wOk optsDry).1.data =
       independentDryRunExpected cfgNode wOk optsDry.release.type) :=
  ⟨rfl, claim_c1_dry_run_frame cfgNode infoDemo wOk optsDry rfl⟩

/-- C2 counterexample: an empty commit list is not a valid non-error result
of GitClient.getCommits — the client itself throws the 'No commits found'
OrbitItError, so the empty list never reaches the orchestrator. -/
theorem claim_c2_counterexample :
    GitClient.getCommits (Except.ok ([] : List Commit)) =
      Except.error (Thrown.orbit noCommitsClientError) ∧
    GitClient.getCommits (Except.ok ([] : List Commit)) ≠
      Except.ok [] := by
  constructor
  · rfl
  · intro h
    simp [GitClient.getCommits] at h

/-- C2 (amended): with zero commits since the latest tag, GitClient's own
getCommits throws the 'No commits found' OrbitItError (the orchestrator's
zero-commit check is not what fires), both strategies fail with exactly that
error, and no mutation is performed. -/
theorem claim_c2_amended (cfg : Config) (info : RepoInfo) (w : World)
    (opts : ReleaseOptions) (tg : TagsResult)
    (htags : w.tags = Except.ok tg)
    (hlog : w.log (jsLatest tg.latest) = Except.ok []) :
    GitClient.getCommits (w.log (jsLatest tg.latest)) =
      Except.error (Thrown.orbit noCommitsClientError) ∧
    versionStrategyFixedRelease cfg info w opts =
      (⟨some noCommitsClientError, none⟩, []) ∧
    versionStrategyIndependentRelease cfg info w opts =
      (⟨some noCommitsClientError, none⟩, []) := by
  have hgc : GitClient.getCommits (w.log (jsLatest tg.latest)) =
      Except.error (Thrown.orbit noCommitsClientError) := by
    rw [hlog]; rfl
  refine ⟨hgc, ?_, ?_⟩
  · unfold versionStrategyFixedRelease fixedCore
    rw [htags]
    simp [hgc, wrapCatch]
  · unfold versionStrategyIndependentRelease independentCore
    rw [htags]
    simp [hgc, wrapCatch]

/-- Witness for C2 (amended) at a concrete world with an empty log. -/
theorem claim_c2_witness :
    wEmptyLog.tags = Except.ok ⟨["v1.0.0"], some "v1.0.0"⟩ ∧
    wEmptyLog.log (jsLatest (some "v1.0.0")) = Except.ok [] ∧
    (GitClient.getCommits (wEmptyLog.log (jsLatest (some "v1.0.0"))) =
       Except.error (Thrown.orbit noCommitsClientError) ∧
     versionStrategyFixedRelease cfgNode infoDemo wEmptyLog optsWet =
       (⟨some noCommitsClientError, none⟩, []) ∧
     versionStrategyIndependentRelease cfgNode infoDemo wEmptyLog optsWet =
       (⟨some noCommitsClientError, none⟩, [])) :=
  ⟨rfl, rfl,
   claim_c2_amended cfgNode infoDemo wEmptyLog optsWet ⟨["v1.0.0"], some "v1.0.0"⟩ rfl rfl⟩

/-- C3: behaviour of the code at the failing input. semver.inc on the
unparseable current version 'not-semver' is null, yet the fixed-strategy run
does not fail with an InvalidVersion error: it proceeds and returns a
successful result whose version is null and whose tag name is 'vnull'. -/
theorem claim_c3_code_eval :
    semverInc "not-semver" ReleaseType.minor = none ∧
    (versionStrategyFixedRelease cfgBadVersion infoDemo wOk optsDry).1 =
      ⟨none, some ⟨none, "vnull",
        generateReleaseNotes "vnull" [cFeat, cFix]⟩⟩ := by
  exact ⟨rfl, rfl⟩

/-- C6: with zero existing tags the fixed strategy does not fail on that
account: it treats the state as a first release, consumes the commits the
inspector returns for an absent `from` bound (all commits reachable from
HEAD), and computes the next version from the config's current
project.version. -/
theorem claim_c6_first_release (cfg : Config) (info : RepoInfo) (w : World)
    (opts : ReleaseOptions) (cs : List Commit)
    (htags : w.tags = Except.ok ⟨[], none⟩)
    (hlog : w.log none = Except.ok cs) (hne : cs ≠ [])
    (hct : w.createTagRes = Except.ok ())
    (hcr : w.createReleaseRes = Except.ok ())
    (hpt : w.pushTagsRes = Except.ok ()) :
    (versionStrategyFixedRelease cfg info w opts).1 =
      ⟨none, some ⟨semverInc cfg.project.version opts.release.type,
        "v" ++ jsTemplate (semverInc cfg.project.version opts.release.type),
        generateReleaseNotes
          ("v" ++ jsTemplate (semverInc cfg.project.version opts.release.type))
          cs⟩⟩ := by
  have hgc : GitClient.getCommits (w.log (jsLatest none)) = Except.ok cs := by
    simp [jsLatest, hlog, GitClient.getCommits, hne]
  unfold versionStrategyFixedRelease fixedCore
  rw [htags]
  simp only [hgc]
  by_cases hdry : jsBoolOpt opts.dryRun = true
  · simp [hdry, hne]
  · simp only [Bool.not_eq_true] at hdry
    unfold publishTail
    rw [hct, hcr, hpt]
    simp [hdry, hne]

/-- Witness for C6 at a concrete tag-free world. -/
theorem claim_c6_witness :
    wNoTags.tags = Except.ok ⟨[], none⟩ ∧
    wNoTags.log none = Except.ok [cFeat, cFix] ∧
    ([cFeat, cFix] ≠ ([] : List Commit)) ∧
    (versionStrategyFixedRelease cfgNode infoDemo wNoTags optsWet).1 =
      ⟨none, some ⟨semverInc cfgNode.project.version optsWet.release.type,
        "v" ++ jsTemplate (semverInc cfgNode.project.version optsWet.release.type),
        generateReleaseNotes
          ("v" ++ jsTemplate (semverInc cfgNode.project.version optsWet.release.type))
          [cFeat, cFix]⟩⟩ :=
  ⟨rfl, rfl, by simp,
   claim_c6_first_release cfgNode infoDemo wNoTags optsWet [cFeat, cFix]
     rfl rfl (by simp) rfl rfl rfl⟩

/-- C8 (amended): the Python bump batch fails with NoVersionFilesFound
exactly when fast-glob resolves zero of the requested files across all
workspaces together; in that case nothing is written. A workspace with none
of the three files does not fail the batch when another workspace
contributes a file. -/
theorem claim_c8_amended (w : World) (v : Option String) (files : List String)
    (hfg : w.fg files = Except.ok []) :
    pythonBumpPackages w v files = (⟨some noPythonFilesError, none⟩, []) := by
  unfold pythonBumpPackages pythonBumpCore
  rw [hfg]
  simp [wrapCatch]

/-- Witness for C8 (amended) with a glob that resolves no file. -/
theorem claim_c8_witness :
    wEmptyGlob.fg pyFilesDemo = Except.ok [] ∧
    pythonBumpPackages wEmptyGlob (some "1.1.0") pyFilesDemo =
      (⟨some noPythonFilesError, none⟩, []) :=
  ⟨rfl, claim_c8_amended wEmptyGlob (some "1.1.0") pyFilesDemo rfl⟩

/-- C8 counterexample: with workspaces pkg-a and pkg-b where pkg-b has none
of the three Python version files (the glob resolves only pkg-a's
pyproject.toml), the bump batch succeeds rather than failing with
NoVersionFilesFound. -/
theorem claim_c8_counterexample :
    wOnlyPkgA.fg pyFilesDemo = Except.ok ["pkg-a/pyproject.toml"] ∧
    (∀ p ∈ ["pkg-a/pyproject.toml"], ¬ jsStartsWith p "pkg-b") ∧
    (pythonBumpPackages wOnlyPkgA (some "1.1.0") pyFilesDemo).1.error = none := by
  refine ⟨rfl, by decide, rfl⟩

/-- C10: when the workspace globs resolve to zero package.json files, the
Node bump returns success with no error and writes nothing — the 'No
package.json files found' branch is unreachable because a fast-glob result
array is always truthy. -/
theorem claim_c10_empty_glob (w : World) (v : Option String)
    (ws : List String) (hfg : w.fg ws = Except.ok []) :
    nodeJsBumpPackages w v ws = (⟨none, none⟩, []) := by
  unfold nodeJsBumpPackages nodeJsBumpCore
  rw [hfg]
  simp [jsArrayFalsy, firstThrown]

/-- Witness for C10 with a glob that resolves no file. -/
theorem claim_c10_witness :
    wEmptyGlob.fg ["packages/app/package.json"] = Except.ok [] ∧
    nodeJsBumpPackages wEmptyGlob (some "1.1.0") ["packages/app/package.json"] =
      (⟨none, none⟩, []) :=
  ⟨rfl, claim_c10_empty_glob wEmptyGlob (some "1.1.0")
    ["packages/app/package.json"] rfl⟩

/-- C9 counterexample: when a collaborator throws a value that is not an
Error instance, execute returns with BOTH error and data undefined, so the
failure does not carry an OrbitItError as the claim asserts. -/
theorem claim_c9_counterexample :
    wForeignThrow.checkAuth = Except.error Thrown.nonError ∧
    (ReleaseService.execute cfgNode wForeignThrow optsDry).1.error = none ∧
    (ReleaseService.execute cfgNode wForeignThrow optsDry).1.data = none :=
  ⟨rfl, rfl, rfl⟩

/-- The split chosen by the greedy backtracking always has a non-empty
second component. -/
theorem lastGoodSplit_snd_ne {t g1 g2 : List Char}
    (h : lastGoodSplit t = some (g1, g2)) : g2 ≠ [] := by
  induction t generalizing g1 g2 with
  | nil => simp [lastGoodSplit] at h
  | cons c rest ih =>
    rw [lastGoodSplit] at h
    cases hr : lastGoodSplit rest with
    | some p =>
      obtain ⟨a, b⟩ := p
      rw [hr] at h
      injection h with h
      injection h with hA hB
      subst hB
      exact ih hr
    | none =>
      rw [hr] at h
      by_cases hc : c = '/' ∧ rest ≠ []
      · rw [if_pos hc] at h
        injection h with h
        injection h with hA hB
        subst hB
        exact hc.2
      · rw [if_neg hc] at h
        exact absurd h (by simp)

/-- A successful match attempt yields two non-empty captures. -/
theorem remoteMatchHere_props {cs g1 g2 : List Char}
    (h : remoteMatchHere cs = some (g1, g2)) : g1 ≠ [] ∧ g2 ≠ [] := by
  unfold remoteMatchHere at h
  split at h
  · exact absurd h (by simp)
  · split at h
    · exact absurd h (by simp)
    · split at h
      · split at h
        · split at h
          · exact absurd h (by simp)
          · rename_i hsplit hg1
            injection h with h
            injection h with hA hB
            subst hA hB
            exact ⟨hg1, lastGoodSplit_snd_ne hsplit⟩
        · exact absurd h (by simp)
      · exact absurd h (by simp)

/-- Stripping `.git` from a non-empty capture gives an empty list only when
the capture is exactly `.git`. -/
theorem removeGitSuffix_eq_nil {cs : List Char}
    (h : removeGitSuffix cs = []) (hne : cs ≠ []) :
    cs = ['.','g','i','t'] := by
  unfold removeGitSuffix at h
  split at h
  · rename_i hcond
    obtain ⟨hlen, hdrop⟩ := hcond
    have h4 : cs.length - 4 = 0 ∨ cs = [] := by
      rcases List.take_eq_nil_iff.mp h with h0 | h0
      · exact Or.inl h0
      · exact Or.inr h0
    rcases h4 with h0 | h0
    · have hl4 : cs.length = 4 := by omega
      have := hdrop
      rw [show cs.length - 4 = 0 by omega, List.drop_zero] at this
      exact this
    · exact absurd h0 hne
  · exact absurd h hne

/-- A successful unanchored search yields two non-empty captures. -/
theorem remoteUrlRegexSearch_props {cs g1 g2 : List Char}
    (h : remoteUrlRegexSearch cs = some (g1, g2)) : g1 ≠ [] ∧ g2 ≠ [] := by
  induction cs with
  | nil => simp [remoteUrlRegexSearch] at h
  | cons c rest ih =>
    rw [remoteUrlRegexSearch] at h
    cases hh : remoteMatchHere (c :: rest) with
    | some r =>
      obtain ⟨a, b⟩ := r
      rw [hh] at h
      injection h with h
      injection h with hA hB
      subst hA hB
      exact remoteMatchHere_props hh
    | none =>
      rw [hh] at h
      exact ih h

/-- A String.mk equal to the empty string has an empty character list. -/
theorem mk_eq_empty {cs : List Char} (h : String.mk cs = "") : cs = [] := by
  have := congrArg String.data h
  simpa using this

/-- C7 (amended): on every successful parse the owner is non-empty, and the
repo is non-empty except when the matched second capture is exactly `.git`
(which the `.git`-stripping empties); every URL the pattern does not match
makes getRepoInfo fail with the invalid-remote-format error. -/
theorem claim_c7_amended :
    (∀ (url : String) (info : RepoInfo), parseRepoInfo url = some info →
        info.owner ≠ "" ∧
        (info.repo = "" →
          ∃ g1, remoteUrlRegexSearch url.toList = some (g1, ['.','g','i','t']))) ∧
    (∀ (url : String) (rest : List Remote), parseRepoInfo url = none →
        GitClient.getRepoInfo (Except.ok (⟨url⟩ :: rest)) =
          Except.error (Thrown.orbit invalidRemoteFormatError)) := by
  constructor
  · intro url info h
    unfold parseRepoInfo at h
    cases hs : remoteUrlRegexSearch url.toList with
    | none => rw [hs] at h; exact absurd h (by simp)
    | some p =>
      obtain ⟨g1, g2⟩ := p
      rw [hs] at h
      injection h with h
      subst h
      obtain ⟨h1, h2⟩ := remoteUrlRegexSearch_props hs
      refine ⟨fun hmk => h1 (mk_eq_empty hmk), fun hrepo => ?_⟩
      have hnil : removeGitSuffix g2 = [] := mk_eq_empty hrepo
      have hg2 : g2 = ['.','g','i','t'] := removeGitSuffix_eq_nil hnil h2
      subst hg2
      exact ⟨g1, rfl⟩
  · intro url rest h
    unfold GitClient.getRepoInfo getRemoteUrl
    simp [h]

/-- C7 counterexample: the remote URL https://github.com/owner/.git parses
successfully with an EMPTY repo field, violating the claim that both fields
are non-empty after a successful parse. -/
theorem claim_c7_counterexample :
    parseRepoInfo "https://github.com/owner/.git" = some ⟨"owner", ""⟩ ∧
    GitClient.getRepoInfo (Except.ok [⟨"https://github.com/owner/.git"⟩]) =
      Except.ok ⟨"owner", ""⟩ := ⟨rfl, rfl⟩

/-- Witness for C7 (amended) at concrete matching and non-matching URLs. -/
theorem claim_c7_witness :
    (parseRepoInfo "https://github.com/acme/widget.git" =
       some ⟨"acme", "widget"⟩) ∧
    (("acme" : String) ≠ "" ∧
      ((("widget" : String) = "") →
        ∃ g1, remoteUrlRegexSearch "https://github.com/acme/widget.git".toList =
          some (g1, ['.','g','i','t']))) ∧
    (parseRepoInfo "https://gitlab.com/a/b.git" = none) ∧
    GitClient.getRepoInfo (Except.ok [⟨"https://gitlab.com/a/b.git"⟩]) =
      Except.error (Thrown.orbit invalidRemoteFormatError) :=
  ⟨rfl,
   claim_c7_amended.1 "https://github.com/acme/widget.git" ⟨"acme", "widget"⟩ rfl,
   rfl,
   claim_c7_amended.2 "https://gitlab.com/a/b.git" [] rfl⟩

/-- The publish tail only fails with a value thrown by the tag, release or
push collaborators. -/
theorem publishTail_err {info : RepoInfo} {w : World}
    {tagName releaseNotes : String} {isPre draft : Bool}
    {result : ReleaseResult} {ms0 : List Mutation} {t : Thrown}
    {ms : List Mutation}
    (h : publishTail info w tagName releaseNotes isPre draft result ms0 =
      (.error t, ms))
    (h1 : w.createTagRes ≠ .error .nonError)
    (h2 : w.createReleaseRes ≠ .error .nonError)
    (h3 : w.pushTagsRes ≠ .error .nonError) : t ≠ .nonError := by
  unfold publishTail at h
  split at h
  · rename_i heq
    injection h with hA hB
    injection hA with hA
    subst hA
    intro hc
    subst hc
    exact h1 heq
  · split at h
    · rename_i heq
      injection h with hA hB
      injection hA with hA
      subst hA
      intro hc
      subst hc
      exact h2 heq
    · split at h
      · rename_i heq
        injection h with hA hB
        injection hA with hA
        subst hA
        intro hc
        subst hc
        exact h3 heq
      · exact absurd h (by simp)

/-- GitClient.getCommits only fails with the underlying thrown value or its
own OrbitItError. -/
theorem getCommits_err {r : Except Thrown (List Commit)} {t : Thrown}
    (h : GitClient.getCommits r = .error t)
    (hr : r ≠ .error .nonError) : t ≠ .nonError := by
  cases r with
  | error t1 =>
    simp only [GitClient.getCommits] at h
    injection h with h
    subst h
    intro hc
    subst hc
    exact hr rfl
  | ok l =>
    simp only [GitClient.getCommits] at h
    split at h
    · injection h with h
      subst h
      simp
    · exact absurd h (by simp)

/-- A Promise.all batch only fails with one of its members' thrown values. -/
theorem collectAll_err {α : Type} {l : List (Except Thrown α)} {t : Thrown}
    (h : collectAll l = .error t)
    (hl : ∀ a ∈ l, a ≠ .error .nonError) : t ≠ .nonError := by
  induction l with
  | nil => simp [collectAll] at h
  | cons a rest ih =>
    cases a with
    | error t1 =>
      simp only [collectAll] at h
      injection h with h
      subst h
      exact fun hc => hl _ (List.mem_cons_self _ _) (by rw [hc])
    | ok v =>
      simp only [collectAll] at h
      cases hr : collectAll rest with
      | error t2 =>
        rw [hr] at h
        injection h with h
        subst h
        exact ih hr fun b hb => hl b (List.mem_cons_of_mem _ hb)
      | ok vs => rw [hr] at h; exact absurd h (by simp)

/-- getChangedPackages only fails with a value thrown by getCommitFiles. -/
theorem getChangedPackages_err {cfg : Config} {w : World}
    {commits : List Commit} {t : Thrown}
    (h : getChangedPackages cfg w commits = .error t)
    (hw : ∀ x, w.getCommitFiles x ≠ .error .nonError) : t ≠ .nonError := by
  unfold getChangedPackages at h
  cases hc : collectAll (commits.map fun c => w.getCommitFiles c.hash) with
  | error t1 =>
    rw [hc] at h
    injection h with h
    subst h
    refine collectAll_err hc fun a ha => ?_
    obtain ⟨c, -, hac⟩ := List.mem_map.mp ha
    exact hac ▸ hw c.hash
  | ok fileLists => rw [hc] at h; exact absurd h (by simp)

/-- GitClient.getRepoInfo only fails with the underlying thrown value or one
of its own OrbitItErrors. -/
theorem getRepoInfo_err {w : World} {t : Thrown}
    (h : GitClient.getRepoInfo w.getRemotes = .error t)
    (hr : w.getRemotes ≠ .error .nonError) : t ≠ .nonError := by
  cases hg : w.getRemotes with
  | error t1 =>
    rw [hg] at h
    simp only [GitClient.getRepoInfo, getRemoteUrl] at h
    injection h with h
    subst h
    intro hc
    subst hc
    exact hr hg
  | ok remotes =>
    rw [hg] at h
    cases remotes with
    | nil =>
      simp only [GitClient.getRepoInfo, getRemoteUrl] at h
      injection h with h
      subst h
      simp
    | cons r rest =>
      simp only [GitClient.getRepoInfo, getRemoteUrl] at h
      split at h
      · injection h with h
        subst h
        simp
      · exact absurd h (by simp)

/-- Under foreign-throw-free collaborators, the fixed strategy's try body
never fails with a non-Error value. -/
theorem fixedCore_err {cfg : Config} {info : RepoInfo} {w : World}
    {opts : ReleaseOptions} {t : Thrown} {ms : List Mutation}
    (h : fixedCore cfg info w opts = (.error t, ms))
    (hw : NoForeignThrows w) : t ≠ .nonError := by
  obtain ⟨hAuth, hRem, hTags, hLog, hFiles, hFg, hRJ, hWJ, hRF, hWF,
    hCT, hCR, hPT⟩ := hw
  unfold fixedCore at h
  cases htags : w.tags with
  | error t1 =>
    rw [htags] at h
    dsimp only at h
    injection h with hA hB
    injection hA with hA
    subst hA
    intro hc
    subst hc
    exact hTags htags
  | ok tags =>
    rw [htags] at h
    dsimp only at h
    cases hgc : GitClient.getCommits (w.log (jsLatest tags.latest)) with
    | error t1 =>
      rw [hgc] at h
      dsimp only at h
      injection h with hA hB
      injection hA with hA
      subst hA
      exact getCommits_err hgc (hLog _)
    | ok commits =>
      rw [hgc] at h
      dsimp only at h
      split at h
      · injection h with hA hB
        injection hA with hA
        subst hA
        simp
      · split at h
        · exact absurd h (by simp)
        · exact publishTail_err h hCT hCR hPT

/-- Under foreign-throw-free collaborators, the independent strategy's try
body never fails with a non-Error value. -/
theorem independentCore_err {cfg : Config} {info : RepoInfo} {w : World}
    {opts : ReleaseOptions} {t : Thrown} {ms : List Mutation}
    (h : independentCore cfg info w opts = (.error t, ms))
    (hw : NoForeignThrows w) : t ≠ .nonError := by
  obtain ⟨hAuth, hRem, hTags, hLog, hFiles, hFg, hRJ, hWJ, hRF, hWF,
    hCT, hCR, hPT⟩ := hw
  unfold independentCore at h
  cases htags : w.tags with
  | error t1 =>
    rw [htags] at h
    dsimp only at h
    injection h with hA hB
    injection hA with hA
    subst hA
    intro hc
    subst hc
    exact hTags htags
  | ok tags =>
    rw [htags] at h
    dsimp only at h
    cases hgc : GitClient.getCommits (w.log (jsLatest tags.latest)) with
    | error t1 =>
      rw [hgc] at h
      dsimp only at h
      injection h with hA hB
      injection hA with hA
      subst hA
      exact getCommits_err hgc (hLog _)
    | ok commits =>
      rw [hgc] at h
      dsimp only at h
      split at h
      · injection h with hA hB
        injection hA with hA
        subst hA
        simp
      · cases hch : getChangedPackages cfg w commits with
        | error t1 =>
          rw [hch] at h
          dsimp only at h
          injection h with hA hB
          injection hA with hA
          subst hA
          exact getChangedPackages_err hch hFiles
        | ok changed =>
          rw [hch] at h
          dsimp only at h
          cases changed with
          | nil =>
            injection h with hA hB
            injection hA with hA
            subst hA
            simp
          | cons pkg rest =>
            dsimp only at h
            split at h
            · exact absurd h (by simp)
            · exact publishTail_err h hCT hCR hPT

/-- Under foreign-throw-free collaborators, the fixed strategy never returns
with both error and data undefined. -/
theorem fixedWrap_not_bothNone {cfg : Config} {info : RepoInfo} {w : World}
    {opts : ReleaseOptions} {ms : List Mutation}
    (hw : NoForeignThrows w)
    (h : versionStrategyFixedRelease cfg info w opts = (⟨none, none⟩, ms)) :
    False := by
  unfold versionStrategyFixedRelease at h
  cases hc : fixedCore cfg info w opts with
  | mk r ms0 =>
    rw [hc] at h
    cases r with
    | ok d => simp at h
    | error t =>
      have ht : wrapCatch "Failed to create release." t = none := by
        have := congrArg (fun p => p.1.error) h
        simpa using this
      have htn : t = .nonError := by
        cases t with
        | orbit e => simp [wrapCatch] at ht
        | err m => simp [wrapCatch] at ht
        | nonError => rfl
      exact fixedCore_err hc hw htn

/-- Under foreign-throw-free collaborators, the independent strategy never
returns with both error and data undefined. -/
theorem independentWrap_not_bothNone {cfg : Config} {info : RepoInfo}
    {w : World} {opts : ReleaseOptions} {ms : List Mutation}
    (hw : NoForeignThrows w)
    (h : versionStrategyIndependentRelease cfg info w opts =
      (⟨none, none⟩, ms)) : False := by
  unfold versionStrategyIndependentRelease at h
  cases hc : independentCore cfg info w opts with
  | mk r ms0 =>
    rw [hc] at h
    cases r with
    | ok d => simp at h
    | error t =>
      have ht : wrapCatch "Failed to create release." t = none := by
        have := congrArg (fun p => p.1.error) h
        simpa using this
      have htn : t = .nonError := by
        cases t with
        | orbit e => simp [wrapCatch] at ht
        | err m => simp [wrapCatch] at ht
        | nonError => rfl
      exact independentCore_err hc hw htn

/-- Under foreign-throw-free collaborators, execute's try body never fails
with a non-Error value. -/
theorem executeCore_err {cfg : Config} {w : World} {opts : ReleaseOptions}
    {t : Thrown} {ms : List Mutation}
    (h : executeCore cfg w opts = (.error t, ms))
    (hw : NoForeignThrows w) : t ≠ .nonError := by
  unfold executeCore at h
  cases hAu : w.checkAuth with
  | error t1 =>
    rw [hAu] at h
    dsimp only at h
    injection h with hA hB
    injection hA with hA
    subst hA
    intro hc
    subst hc
    exact hw.1 hAu
  | ok isAuthenticated =>
    rw [hAu] at h
    dsimp only at h
    split at h
    · injection h with hA hB
      injection hA with hA
      subst hA
      simp
    · cases hri : GitClient.getRepoInfo w.getRemotes with
      | error t1 =>
        rw [hri] at h
        dsimp only at h
        injection h with hA hB
        injection hA with hA
        subst hA
        exact getRepoInfo_err hri hw.2.1
      | ok repoInfo =>
        rw [hri] at h
        dsimp only at h
        cases hin :
            (if cfg.release.versioningStrategy = VersioningStrategy.fixed then
              versionStrategyFixedRelease cfg repoInfo w opts
            else versionStrategyIndependentRelease cfg repoInfo w opts) with
        | mk fr ms0 =>
          rw [hin] at h
          obtain ⟨oe, od⟩ := fr
          cases oe with
          | some e =>
            dsimp only at h
            injection h with hA hB
            injection hA with hA
            subst hA
            simp
          | none =>
            cases od with
            | some d =>
              dsimp only at h
              exact absurd h (by simp)
            | none =>
              dsimp only at h
              injection h with hA hB
              injection hA with hA
              subst hA
              intro _
              by_cases hstrat :
                  cfg.release.versioningStrategy = VersioningStrategy.fixed
              · rw [if_pos hstrat] at hin
                exact fixedWrap_not_bothNone hw hin
              · rw [if_neg hstrat] at hin
                exact independentWrap_not_bothNone hw hin

/-- C9 (amended): execute never throws and always returns a result record;
provided every collaborator throw is an Error instance, any failure carries
an OrbitItError (foreign Errors wrapped) with data undefined, and any
success carries the ReleaseResult with error undefined. -/
theorem claim_c9_amended (cfg : Config) (w : World) (opts : ReleaseOptions)
    (hw : NoForeignThrows w) :
    ((ReleaseService.execute cfg w opts).1.data = none →
       ∃ e, (ReleaseService.execute cfg w opts).1.error = some e) ∧
    (∀ d, (ReleaseService.execute cfg w opts).1.data = some d →
       (ReleaseService.execute cfg w opts).1.error = none) := by
  unfold ReleaseService.execute
  cases hc : executeCore cfg w opts with
  | mk r ms =>
    cases r with
    | ok d => simp
    | error t =>
      have ht : t ≠ .nonError := executeCore_err hc hw
      cases t with
      | orbit e => simp [wrapCatch]
      | err m => simp [wrapCatch]
      | nonError => exact absurd rfl ht

/-- Witness for C9 (amended) at a concrete all-succeeding world. -/
theorem claim_c9_witness :
    NoForeignThrows wOk ∧
    (((ReleaseService.execute cfgNode wOk optsWet).1.data = none →
        ∃ e, (ReleaseService.execute cfgNode wOk optsWet).1.error = some e) ∧
     (∀ d, (ReleaseService.execute cfgNode wOk optsWet).1.data = some d →
        (ReleaseService.execute cfgNode wOk optsWet).1.error = none)) :=
  have hnf : NoForeignThrows wOk :=
    ⟨by simp [wOk], by simp [wOk], by simp [wOk], fun _ => by simp [wOk],
     fun _ => by simp [wOk], fun _ => by simp [wOk], fun _ => by simp [wOk],
     fun _ => by simp [wOk], fun _ => by simp [wOk], fun _ => by simp [wOk],
     by simp [wOk], by simp [wOk], by simp [wOk]⟩
  ⟨hnf, claim_c9_amended cfgNode wOk optsWet hnf⟩
